import Mathlib

/-!
Verification of the warren-bot market-aware polling publishers.

Shallow embedding of the Python sources:
  clock_fetcher.py, clock_publisher.py,
  account_fetcher.py, account_publisher.py,
  positions_fetcher.py, positions_publisher.py.

Modelling conventions:
* A store table is a `List (Row α)`: the store assigns each inserted row an
  integer `id` (serial, starting from 1, hence never 0) and a `created_at`
  timestamp; `order by created_at desc limit 1` is modelled by `selectLatest`.
* Network/store calls that can fail are driven by explicit oracle fields
  (`FetchResult`, `insertFails`, ...) supplied in a per-iteration environment.
* Python code that raises is modelled with `Except`, or with a `raised` flag
  in iteration records; a Python `try/except` that swallows the exception is
  modelled by a total function returning the unchanged state.
* ISO timestamp strings are modelled by the rational number of seconds they
  denote; record field values whose contents are never inspected by the
  publishers are modelled opaquely as `String`.
-/

namespace WarrenBot

/-- A persisted snapshot row: storage-assigned serial `id`, creation
timestamp, and the published payload. -/
structure Row (α : Type) where
  id : Nat
  created_at : Nat
  payload : α
  deriving DecidableEq, Repr

/-- Outcome of a vendor-API fetch call: a value, or a raised exception. -/
inductive FetchResult (α : Type) where
  | ok (a : α)
  | err
  deriving DecidableEq, Repr

/-- Fold step realising `order by created_at desc limit 1`: keep the row with
the later creation timestamp (the first seen, on ties). -/
def latestPick {α : Type} (best x : Row α) : Row α :=
  if best.created_at < x.created_at then x else best

/-- `select('id').order('created_at', desc=True).limit(1)`: the most recently
created row of the table, or `none` when the table is empty. -/
def selectLatest {α : Type} : List (Row α) → Option (Row α)
  | [] => none
  | r :: rs => some (rs.foldl latestPick r)

/-- `cleanup_old_snapshots` from clock_publisher.py / account_publisher.py /
positions_publisher.py (the three bodies are identical up to table name):
read the latest row's id and delete every row with a different id.  The whole
body sits in a `try/except` that only logs, so every failure path returns the
table unchanged and the function is total (it never raises to the caller). -/
def cleanup_old_snapshots {α : Type} (selectFails deleteFails : Bool)
    (table : List (Row α)) : List (Row α) :=
  if selectFails then table
  else
    match selectLatest table with
    | none => table
    | some latest =>
      if deleteFails then table
      else table.filter (fun r => r.id == latest.id)

theorem foldl_latestPick_mem {α : Type} (rs : List (Row α)) :
    ∀ best : Row α, rs.foldl latestPick best = best ∨ rs.foldl latestPick best ∈ rs := by
  induction rs with
  | nil => intro best; left; rfl
  | cons x xs ih =>
    intro best
    rcases ih (latestPick best x) with h | h
    · rw [List.foldl_cons, h]
      unfold latestPick
      by_cases hlt : best.created_at < x.created_at
      · right; simp [hlt]
      · left; simp [hlt]
    · right
      rw [List.foldl_cons]
      exact List.mem_cons_of_mem x h

theorem foldl_latestPick_le {α : Type} (rs : List (Row α)) :
    ∀ best : Row α, best.created_at ≤ (rs.foldl latestPick best).created_at ∧
      ∀ x ∈ rs, x.created_at ≤ (rs.foldl latestPick best).created_at := by
  induction rs with
  | nil => intro best; exact ⟨le_refl _, by simp⟩
  | cons y ys ih =>
    intro best
    obtain ⟨h1, h2⟩ := ih (latestPick best y)
    have hbest : best.created_at ≤ (latestPick best y).created_at := by
      unfold latestPick
      by_cases hlt : best.created_at < y.created_at
      · simp [hlt]; exact le_of_lt hlt
      · simp [hlt]
    have hy : y.created_at ≤ (latestPick best y).created_at := by
      unfold latestPick
      by_cases hlt : best.created_at < y.created_at
      · simp [hlt]
      · simp [hlt]; exact le_of_not_lt hlt
    refine ⟨le_trans hbest h1, ?_⟩
    intro x hx
    rcases List.mem_cons.1 hx with hxy | hxys
    · subst hxy; exact le_trans hy h1
    · exact h2 x hxys

theorem selectLatest_mem {α : Type} {table : List (Row α)} {r : Row α}
    (h : selectLatest table = some r) : r ∈ table := by
  cases table with
  | nil => simp [selectLatest] at h
  | cons x xs =>
    simp only [selectLatest, Option.some.injEq] at h
    rcases foldl_latestPick_mem xs x with hm | hm
    · rw [h] at hm; rw [hm]; exact List.mem_cons_self x xs
    · rw [h] at hm; exact List.mem_cons_of_mem x hm

theorem selectLatest_max {α : Type} {table : List (Row α)} {r : Row α}
    (h : selectLatest table = some r) : ∀ x ∈ table, x.created_at ≤ r.created_at := by
  cases table with
  | nil => simp [selectLatest] at h
  | cons y ys =>
    simp only [selectLatest, Option.some.injEq] at h
    obtain ⟨h1, h2⟩ := foldl_latestPick_le ys y
    intro x hx
    rcases List.mem_cons.1 hx with hxy | hxys
    · subst hxy; rw [← h]; exact h1
    · rw [← h]; exact h2 x hxys

/-- With pairwise-distinct row ids (the primary-key invariant), keeping only
the rows sharing a member's id keeps exactly that member. -/
theorem filter_id_eq_single {α : Type} (l : List (Row α)) (a : Row α)
    (hmem : a ∈ l) (hnd : (l.map Row.id).Nodup) :
    l.filter (fun r => r.id == a.id) = [a] := by
  induction l with
  | nil => simp at hmem
  | cons x xs ih =>
    simp only [List.map_cons, List.nodup_cons] at hnd
    obtain ⟨hxnot, hndxs⟩ := hnd
    rcases List.mem_cons.1 hmem with hax | haxs
    · subst hax
      have hnone : xs.filter (fun r => r.id == a.id) = [] := by
        apply List.filter_eq_nil_iff.2
        intro r hr hbeq
        apply hxnot
        have : r.id = a.id := by simpa using hbeq
        rw [← this]
        exact List.mem_map_of_mem Row.id hr
      simp [List.filter_cons, hnone]
    · have hne : x.id ≠ a.id := by
        intro hEq
        apply hxnot
        rw [hEq]
        exact List.mem_map_of_mem Row.id haxs
      simp only [List.filter_cons, beq_iff_eq, hne, if_false]
      exact ih haxs hndxs

/-! ## Timing helpers (clock_publisher.py)

Python `float` arithmetic on durations is modelled over `ℚ`; `int(x)` is
truncation toward zero (`pyint`), `x // y` is floor division, `x % y` is the
Python modulo (sign of the divisor). -/

/-- Python `int()` applied to a rational: truncation toward zero. -/
def pyint (q : ℚ) : ℤ :=
  if 0 ≤ q then ⌊q⌋ else ⌈q⌉

/-- Python `a // b` on numbers (result is the floor, as an exact value). -/
def pyfloordiv (a b : ℚ) : ℚ :=
  (⌊a / b⌋ : ℚ)

/-- Python `a % b` on numbers: `a - b * (a // b)`. -/
def pymod (a b : ℚ) : ℚ :=
  a - b * (⌊a / b⌋ : ℚ)

/-- `format_time_remaining` from clock_publisher.py, returning the numeric
triple `(hours, minutes, seconds)` that the formatted string interpolates:
`hours = int(seconds // 3600)`, `minutes = int((seconds % 3600) // 60)`,
`seconds = int(seconds % 60)`. -/
def format_time_remaining (seconds : ℚ) : ℤ × ℤ × ℤ :=
  (pyint (pyfloordiv seconds 3600),
   pyint (pyfloordiv (pymod seconds 3600) 60),
   pyint (pymod seconds 60))

/-- `calculate_sleep_time` from clock_publisher.py: seconds until the next
market event, clamped at zero (`max(0, (next_time - now).total_seconds())`).
The ISO timestamp string and `now` are modelled as rational epoch seconds. -/
def calculate_sleep_time (next_time now : ℚ) : ℚ :=
  max 0 (next_time - now)

/-! ## Clock fetcher (clock_fetcher.py) -/

/-- The vendor clock object returned by `trading_client.get_clock()`:
`next_open` / `next_close` / `timestamp` may be null. -/
structure VendorClock where
  is_open : Bool
  next_open : Option ℚ
  next_close : Option ℚ
  timestamp : Option ℚ
  deriving DecidableEq, Repr

/-- A published clock snapshot (the dict built by `get_clock_data`, also the
shape of a `clock_snapshot` row read back by `get_market_status`). -/
structure ClockData where
  is_open : Bool
  next_open : Option ℚ
  next_close : Option ℚ
  timestamp : Option ℚ
  deriving DecidableEq, Repr

/-- `get_clock_data` from clock_fetcher.py.  The vendor call outcome is the
`vendor` oracle; on failure the exception is logged and re-raised (`.error`).
`is_open` is `True if force_open else clock.is_open`. -/
def get_clock_data (force_open : Bool) (vendor : FetchResult VendorClock) :
    Except Unit ClockData :=
  match vendor with
  | .err => .error ()
  | .ok clock =>
      .ok { is_open := if force_open then true else clock.is_open
            next_open := clock.next_open
            next_close := clock.next_close
            timestamp := clock.timestamp }

/-! ## Account fetcher (account_fetcher.py) -/

/-- The vendor account object returned by `trading_client.get_account()`.
Field values are opaque to the publishers, so each is modelled as `String`
(the Python code only converts `id` with `str(...)` and serialises the rest
unchanged). -/
structure Account where
  id : String
  account_number : String
  status : String
  currency : String
  cash : String
  portfolio_value : String
  pattern_day_trader : String
  trading_blocked : String
  transfers_blocked : String
  account_blocked : String
  created_at : String
  trade_suspended_by_user : String
  multiplier : String
  shorting_enabled : String
  equity : String
  last_equity : String
  long_market_value : String
  short_market_value : String
  initial_margin : String
  maintenance_margin : String
  last_maintenance_margin : String
  daytrade_count : String
  buying_power : String
  daytrading_buying_power : String
  regt_buying_power : String
  non_marginable_buying_power : String
  deriving DecidableEq, Repr

/-- A published record: the Python dict, as an association list in insertion
order (Python dicts preserve insertion order and have unique keys). -/
abbrev Record := List (String × String)

/-- `get_account_data` from account_fetcher.py: the dict it builds from a
successfully fetched vendor account, keys in source order. -/
def get_account_data (account : Account) : Record :=
  [("id", account.id),
   ("account_number", account.account_number),
   ("status", account.status),
   ("currency", account.currency),
   ("cash", account.cash),
   ("portfolio_value", account.portfolio_value),
   ("pattern_day_trader", account.pattern_day_trader),
   ("trading_blocked", account.trading_blocked),
   ("transfers_blocked", account.transfers_blocked),
   ("account_blocked", account.account_blocked),
   ("created_at", account.created_at),
   ("trade_suspended_by_user", account.trade_suspended_by_user),
   ("multiplier", account.multiplier),
   ("shorting_enabled", account.shorting_enabled),
   ("equity", account.equity),
   ("last_equity", account.last_equity),
   ("long_market_value", account.long_market_value),
   ("short_market_value", account.short_market_value),
   ("initial_margin", account.initial_margin),
   ("maintenance_margin", account.maintenance_margin),
   ("last_maintenance_margin", account.last_maintenance_margin),
   ("daytrade_count", account.daytrade_count),
   ("buying_power", account.buying_power),
   ("daytrading_buying_power", account.daytrading_buying_power),
   ("regt_buying_power", account.regt_buying_power),
   ("non_marginable_buying_power", account.non_marginable_buying_power)]

/-- `account_data['alpaca_id'] = account_data.pop('id')` from
account_publisher.py: remove the `id` key and re-insert its value under
`alpaca_id` (a fresh key lands at the end, by dict insertion order).
`pop` raises `KeyError` when `id` is absent (`.error`). -/
def rename_id_to_alpaca (d : Record) : Except Unit Record :=
  match d.lookup "id" with
  | none => .error ()
  | some v => .ok ((d.filter (fun kv => kv.1 != "id")) ++ [("alpaca_id", v)])

/-! ## Positions fetcher (positions_fetcher.py) -/

/-- One vendor position object from `trading_client.get_all_positions()`;
field values are opaque to the publishers, modelled as `String`. -/
structure Position where
  asset_id : String
  symbol : String
  exchange : String
  asset_class : String
  asset_marginable : String
  qty : String
  avg_entry_price : String
  side : String
  market_value : String
  cost_basis : String
  unrealized_pl : String
  unrealized_plpc : String
  unrealized_intraday_pl : String
  unrealized_intraday_plpc : String
  current_price : String
  lastday_price : String
  change_today : String
  qty_available : String
  deriving DecidableEq, Repr

/-- `get_positions_data` from positions_fetcher.py: one dict per position,
keys in source order. -/
def get_positions_data (positions : List Position) : List Record :=
  positions.map (fun p =>
    [("asset_id", p.asset_id),
     ("symbol", p.symbol),
     ("exchange", p.exchange),
     ("asset_class", p.asset_class),
     ("asset_marginable", p.asset_marginable),
     ("qty", p.qty),
     ("avg_entry_price", p.avg_entry_price),
     ("side", p.side),
     ("market_value", p.market_value),
     ("cost_basis", p.cost_basis),
     ("unrealized_pl", p.unrealized_pl),
     ("unrealized_plpc", p.unrealized_plpc),
     ("unrealized_intraday_pl", p.unrealized_intraday_pl),
     ("unrealized_intraday_plpc", p.unrealized_intraday_plpc),
     ("current_price", p.current_price),
     ("lastday_price", p.lastday_price),
     ("change_today", p.change_today),
     ("qty_available", p.qty_available)])

/-- The store inserting a batch: each row gets the next serial id and the
call's creation timestamp. -/
def insertRows {α : Type} : List α → Nat → Nat → List (Row α)
  | [], _, _ => []
  | p :: ps, nextId, ts => ⟨nextId, ts, p⟩ :: insertRows ps (nextId + 1) ts

theorem insertRows_map_payload {α : Type} (data : List α) :
    ∀ nextId ts, (insertRows data nextId ts).map Row.payload = data := by
  induction data with
  | nil => intro nextId ts; rfl
  | cons p ps ih =>
    intro nextId ts
    simp only [insertRows, List.map_cons, ih]

/-! ## Account poller (account_publisher.py, `publish_account_data`)

One loop iteration, driven by a per-iteration environment of oracle
outcomes.  `get_market_status` returns the latest `clock_snapshot` row, or
`None` on an empty table / failed query (its `try/except` returns `None`);
this is `status : Option ClockData`.  An exception escaping the loop body is
caught by the outer `except`, logged, and **re-raised**, which ends the
loop: recorded as `raised := true`. -/

structure AccountEnv where
  status : Option ClockData
  fetch : FetchResult Account
  insertFails : Bool
  cleanupSelectFails : Bool
  cleanupDeleteFails : Bool
  createdAt : Nat
  deriving DecidableEq, Repr

/-- Observable outcome of one account-poller iteration: the table after it,
whether `get_account_data` was called, how many `insert` calls were made,
the `time.sleep` argument (0 when the iteration raised), and whether an
exception propagated out of the loop. -/
structure AccountIter where
  env : AccountEnv
  table : List (Row Record)
  fetched : Bool
  publishCalls : Nat
  sleep : Nat
  raised : Bool
  deriving DecidableEq, Repr

/-- One iteration of the `while True` loop of `publish_account_data`. -/
def accountIteration (force_open : Bool) (e : AccountEnv)
    (table : List (Row Record)) (nextId : Nat) : AccountIter :=
  match e.status with
  | none =>
      -- "Could not determine market status, waiting 60 seconds before retry"
      { env := e, table := table, fetched := false, publishCalls := 0
        sleep := 60, raised := false }
  | some clock_data =>
    if force_open || clock_data.is_open then
      match e.fetch with
      | .err =>
          -- get_account_data raised; outer except logs and re-raises
          { env := e, table := table, fetched := true, publishCalls := 0
            sleep := 0, raised := true }
      | .ok account =>
        match rename_id_to_alpaca (get_account_data account) with
        | .error _ =>
            { env := e, table := table, fetched := true, publishCalls := 0
              sleep := 0, raised := true }
        | .ok account_data =>
          if e.insertFails then
            -- inner except logs the payload and re-raises
            { env := e, table := table, fetched := true, publishCalls := 1
              sleep := 0, raised := true }
          else
            { env := e
              table := table ++ [⟨nextId, e.createdAt, account_data⟩]
              fetched := true, publishCalls := 1, sleep := 60, raised := false }
    else
      { env := e
        table := cleanup_old_snapshots e.cleanupSelectFails e.cleanupDeleteFails table
        fetched := false, publishCalls := 0, sleep := 60, raised := false }

/-- The loop of `publish_account_data`, run over a finite prefix of oracle
environments; a raised iteration terminates the loop (the outer handler
re-raises). -/
def runAccount (force_open : Bool) :
    List AccountEnv → List (Row Record) → Nat → List AccountIter
  | [], _, _ => []
  | e :: rest, table, nextId =>
    let it := accountIteration force_open e table nextId
    if it.raised then [it]
    else it :: runAccount force_open rest it.table (nextId + it.publishCalls)

/-! ## Positions poller (positions_publisher.py, `publish_positions_data`) -/

structure PositionsEnv where
  status : Option ClockData
  fetch : FetchResult (List Position)
  deleteFails : Bool
  insertFails : Bool
  cleanupSelectFails : Bool
  cleanupDeleteFails : Bool
  createdAt : Nat
  deriving DecidableEq, Repr

structure PositionsIter where
  env : PositionsEnv
  table : List (Row Record)
  fetched : Bool
  publishCalls : Nat
  sleep : Nat
  raised : Bool
  deriving DecidableEq, Repr

/-- One iteration of the `while True` loop of `publish_positions_data`.
The publish step is `delete().neq('id', 0)` (removing every row whose id is
not 0) followed by a batch insert; if the delete succeeded but the insert
fails, the table is left in the deleted state and the exception is
re-raised. -/
def positionsIteration (force_open : Bool) (e : PositionsEnv)
    (table : List (Row Record)) (nextId : Nat) : PositionsIter :=
  match e.status with
  | none =>
      { env := e, table := table, fetched := false, publishCalls := 0
        sleep := 60, raised := false }
  | some clock_data =>
    if force_open || clock_data.is_open then
      match e.fetch with
      | .err =>
          { env := e, table := table, fetched := true, publishCalls := 0
            sleep := 0, raised := true }
      | .ok positions =>
        let positions_data := get_positions_data positions
        if e.deleteFails then
          { env := e, table := table, fetched := true, publishCalls := 0
            sleep := 0, raised := true }
        else
          let afterDelete := table.filter (fun r => r.id == 0)
          if e.insertFails then
            { env := e, table := afterDelete, fetched := true, publishCalls := 1
              sleep := 0, raised := true }
          else
            { env := e
              table := afterDelete ++ insertRows positions_data nextId e.createdAt
              fetched := true, publishCalls := 1, sleep := 60, raised := false }
    else
      { env := e
        table := cleanup_old_snapshots e.cleanupSelectFails e.cleanupDeleteFails table
        fetched := false, publishCalls := 0, sleep := 60, raised := false }

/-- The loop of `publish_positions_data` over a finite prefix of oracle
environments. -/
def runPositions (force_open : Bool) :
    List PositionsEnv → List (Row Record) → Nat → List PositionsIter
  | [], _, _ => []
  | e :: rest, table, nextId =>
    let it := positionsIteration force_open e table nextId
    if it.raised then [it]
    else it :: runPositions force_open rest it.table
          (nextId + (it.table.length - table.length))

/-! ## Clock poller (clock_publisher.py, `publish_clock_data`) -/

structure ClockEnv where
  vendor : FetchResult VendorClock
  insertFails : Bool
  now : ℚ
  cleanupSelectFails : Bool
  cleanupDeleteFails : Bool
  createdAt : Nat
  deriving DecidableEq, Repr

/-- Observable outcome of one clock-poller iteration.  `returned` is the
run-once (`test_mode`) return value when the iteration returned instead of
sleeping; `sleep` is the total seconds slept before the next iteration (the
closed-market countdown loop sleeps its computed total in chunks). -/
structure ClockIter where
  env : ClockEnv
  table : List (Row ClockData)
  fetched : Bool
  publishCalls : Nat
  raised : Bool
  returned : Option ClockData
  sleep : ℚ
  deriving DecidableEq, Repr

/-- One iteration of the `while True` loop of `publish_clock_data`: fetch the
clock, insert the snapshot unconditionally, then branch on `is_open`.
`calculate_sleep_time` raises on a null timestamp field (`fromisoformat` on
`None`); any exception is logged by the outer handler and re-raised. -/
def clockIteration (force_open test_mode : Bool) (e : ClockEnv)
    (table : List (Row ClockData)) (nextId : Nat) : ClockIter :=
  match get_clock_data force_open e.vendor with
  | .error _ =>
      { env := e, table := table, fetched := true, publishCalls := 0
        raised := true, returned := none, sleep := 0 }
  | .ok clock_data =>
    if e.insertFails then
      { env := e, table := table, fetched := true, publishCalls := 1
        raised := true, returned := none, sleep := 0 }
    else
      let table1 := table ++ [⟨nextId, e.createdAt, clock_data⟩]
      if clock_data.is_open then
        match clock_data.next_close with
        | none =>
            { env := e, table := table1, fetched := true, publishCalls := 1
              raised := true, returned := none, sleep := 0 }
        | some nc =>
          let _time_to_close := calculate_sleep_time nc e.now
          if test_mode then
            { env := e, table := table1, fetched := true, publishCalls := 1
              raised := false, returned := some clock_data, sleep := 0 }
          else
            { env := e, table := table1, fetched := true, publishCalls := 1
              raised := false, returned := none, sleep := 60 }
      else
        let table2 :=
          cleanup_old_snapshots e.cleanupSelectFails e.cleanupDeleteFails table1
        match clock_data.next_open with
        | none =>
            { env := e, table := table2, fetched := true, publishCalls := 1
              raised := true, returned := none, sleep := 0 }
        | some nop =>
          let total_sleep_time := calculate_sleep_time nop e.now
          if test_mode then
            { env := e, table := table2, fetched := true, publishCalls := 1
              raised := false, returned := some clock_data, sleep := 0 }
          else
            { env := e, table := table2, fetched := true, publishCalls := 1
              raised := false, returned := none, sleep := total_sleep_time }

/-- The loop of `publish_clock_data` over a finite prefix of oracle
environments; a raised iteration or a run-once return terminates the loop. -/
def runClock (force_open test_mode : Bool) :
    List ClockEnv → List (Row ClockData) → Nat → List ClockIter
  | [], _, _ => []
  | e :: rest, table, nextId =>
    let it := clockIteration force_open test_mode e table nextId
    if it.raised || it.returned.isSome then [it]
    else it :: runClock force_open test_mode rest it.table (nextId + it.publishCalls)

/-! ## Helper lemmas for the timing functions -/

theorem pyint_intCast (n : ℤ) : pyint (n : ℚ) = n := by
  unfold pyint
  split <;> simp

theorem pyint_pyfloordiv (a b : ℚ) : pyint (pyfloordiv a b) = ⌊a / b⌋ := by
  unfold pyfloordiv
  exact pyint_intCast _

theorem pyint_of_nonneg {q : ℚ} (hq : 0 ≤ q) : pyint q = ⌊q⌋ := by
  unfold pyint
  rw [if_pos hq]

theorem pymod_eq_mul_fract (a b : ℚ) (hb : b ≠ 0) :
    pymod a b = b * Int.fract (a / b) := by
  unfold pymod
  rw [Int.fract]
  field_simp

theorem pymod_nonneg (a b : ℚ) (hb : 0 < b) : 0 ≤ pymod a b := by
  rw [pymod_eq_mul_fract a b hb.ne.symm]
  exact mul_nonneg hb.le (Int.fract_nonneg _)

theorem pymod_lt (a b : ℚ) (hb : 0 < b) : pymod a b < b := by
  rw [pymod_eq_mul_fract a b hb.ne.symm]
  calc b * Int.fract (a / b) < b * 1 := by
        exact mul_lt_mul_of_pos_left (Int.fract_lt_one _) hb
    _ = b := mul_one b

theorem floor_pymod (a b : ℚ) (hb : b ≠ 0) :
    ⌊pymod a b / b⌋ = 0 ∧ pymod a b = a - b * (⌊a / b⌋ : ℚ) := by
  exact ⟨by
    rw [pymod_eq_mul_fract a b hb, mul_div_cancel_left₀ _ hb]
    exact Int.floor_fract _, rfl⟩

/-! ## Helper lemmas for the poller state machines -/

theorem accountIteration_env (fo : Bool) (e : AccountEnv)
    (tbl : List (Row Record)) (nid : Nat) :
    (accountIteration fo e tbl nid).env = e := by
  obtain ⟨st, f, iF, csf, cdf, ts⟩ := e
  cases st with
  | none => rfl
  | some cd =>
    by_cases h : (fo || cd.is_open) = true
    · cases f with
      | err => simp [accountIteration, h]
      | ok a =>
        cases hr : rename_id_to_alpaca (get_account_data a) with
        | error u => simp [accountIteration, h, hr]
        | ok rec => cases iF <;> simp [accountIteration, h, hr]
    · simp [accountIteration, h]

theorem accountIteration_fetched (fo : Bool) (e : AccountEnv)
    (tbl : List (Row Record)) (nid : Nat) :
    (accountIteration fo e tbl nid).fetched = true ↔
      ∃ c, e.status = some c ∧ (fo || c.is_open) = true := by
  obtain ⟨st, f, iF, csf, cdf, ts⟩ := e
  cases st with
  | none => simp [accountIteration]
  | some cd =>
    by_cases h : (fo || cd.is_open) = true
    · cases f with
      | err => simp [accountIteration, h]; simpa using h
      | ok a =>
        cases hr : rename_id_to_alpaca (get_account_data a) with
        | error u => simp [accountIteration, h, hr]; simpa using h
        | ok rec => cases iF <;> (simp [accountIteration, h, hr]; simpa using h)
    · simp [accountIteration, h]
      simpa using h

theorem positionsIteration_env (fo : Bool) (e : PositionsEnv)
    (tbl : List (Row Record)) (nid : Nat) :
    (positionsIteration fo e tbl nid).env = e := by
  obtain ⟨st, f, dF, iF, csf, cdf, ts⟩ := e
  cases st with
  | none => rfl
  | some cd =>
    by_cases h : (fo || cd.is_open) = true
    · cases f with
      | err => simp [positionsIteration, h]
      | ok ps => cases dF <;> cases iF <;> simp [positionsIteration, h]
    · simp [positionsIteration, h]

theorem positionsIteration_fetched (fo : Bool) (e : PositionsEnv)
    (tbl : List (Row Record)) (nid : Nat) :
    (positionsIteration fo e tbl nid).fetched = true ↔
      ∃ c, e.status = some c ∧ (fo || c.is_open) = true := by
  obtain ⟨st, f, dF, iF, csf, cdf, ts⟩ := e
  cases st with
  | none => simp [positionsIteration]
  | some cd =>
    by_cases h : (fo || cd.is_open) = true
    · cases f with
      | err => simp [positionsIteration, h]; simpa using h
      | ok ps => cases dF <;> cases iF <;> (simp [positionsIteration, h]; simpa using h)
    · simp [positionsIteration, h]
      simpa using h

theorem clockIteration_fetched (fo tm : Bool) (e : ClockEnv)
    (tbl : List (Row ClockData)) (nid : Nat) :
    (clockIteration fo tm e tbl nid).fetched = true := by
  obtain ⟨v, iF, now, csf, cdf, ts⟩ := e
  cases v with
  | err => simp [clockIteration, get_clock_data]
  | ok vc =>
    cases iF with
    | true => simp [clockIteration, get_clock_data]
    | false =>
      by_cases hopen : (if fo then true else vc.is_open) = true
      · cases hnc : vc.next_close with
        | none => cases tm <;> simp [clockIteration, get_clock_data, hopen, hnc]
        | some nc => cases tm <;> simp [clockIteration, get_clock_data, hopen, hnc]
      · cases hno : vc.next_open with
        | none => cases tm <;> simp [clockIteration, get_clock_data, hopen, hno]
        | some nop => cases tm <;> simp [clockIteration, get_clock_data, hopen, hno]

theorem runAccount_mem (fo : Bool) (envs : List AccountEnv) :
    ∀ (tbl : List (Row Record)) (nid : Nat) (it : AccountIter),
      it ∈ runAccount fo envs tbl nid →
      ∃ e tbl0 nid0, it = accountIteration fo e tbl0 nid0 := by
  induction envs with
  | nil => intro tbl nid it h; simp [runAccount] at h
  | cons e rest ih =>
    intro tbl nid it h
    simp only [runAccount] at h
    by_cases hr : (accountIteration fo e tbl nid).raised = true
    · rw [if_pos hr] at h
      rcases List.mem_singleton.1 h with h1
      exact ⟨e, tbl, nid, h1⟩
    · rw [if_neg hr] at h
      rcases List.mem_cons.1 h with h1 | h2
      · exact ⟨e, tbl, nid, h1⟩
      · exact ih _ _ it h2

theorem runPositions_mem (fo : Bool) (envs : List PositionsEnv) :
    ∀ (tbl : List (Row Record)) (nid : Nat) (it : PositionsIter),
      it ∈ runPositions fo envs tbl nid →
      ∃ e tbl0 nid0, it = positionsIteration fo e tbl0 nid0 := by
  induction envs with
  | nil => intro tbl nid it h; simp [runPositions] at h
  | cons e rest ih =>
    intro tbl nid it h
    simp only [runPositions] at h
    by_cases hr : (positionsIteration fo e tbl nid).raised = true
    · rw [if_pos hr] at h
      rcases List.mem_singleton.1 h with h1
      exact ⟨e, tbl, nid, h1⟩
    · rw [if_neg hr] at h
      rcases List.mem_cons.1 h with h1 | h2
      · exact ⟨e, tbl, nid, h1⟩
      · exact ih _ _ it h2

/-! ## Theorems for the claims -/

/-- C5: the retention cleanup (`cleanup_old_snapshots`), applied with the
store calls succeeding to a table with more than one row whose ids are
pairwise distinct (the primary-key invariant), leaves exactly one row, a row
of the original table carrying its maximum creation timestamp; applied to an
empty table — under any combination of query/delete failures, which its
`try/except` absorbs — it leaves the table empty and returns normally. -/
theorem cleanup_retention_policy {α : Type} (table : List (Row α))
    (hlen : 1 < table.length) (hnd : (table.map Row.id).Nodup) :
    (∃ r, cleanup_old_snapshots false false table = [r] ∧ r ∈ table ∧
        ∀ x ∈ table, x.created_at ≤ r.created_at) ∧
    (∀ (sf df : Bool), cleanup_old_snapshots sf df ([] : List (Row α)) = []) := by
  constructor
  · match table, hlen, hnd with
    | x :: xs, _, hnd =>
      have hr : selectLatest (x :: xs) = some (xs.foldl latestPick x) := rfl
      refine ⟨xs.foldl latestPick x, ?_, selectLatest_mem hr, selectLatest_max hr⟩
      simp only [cleanup_old_snapshots, Bool.false_eq_true, if_false, hr]
      exact filter_id_eq_single _ _ (selectLatest_mem hr) hnd
  · intro sf df
    cases sf <;> simp [cleanup_old_snapshots, selectLatest]

theorem cleanup_retention_policy_witness :
    (∃ r, cleanup_old_snapshots false false
        [Row.mk 1 5 0, Row.mk 2 9 0] = [r] ∧ r ∈ [Row.mk 1 5 0, Row.mk 2 9 0] ∧
        ∀ x ∈ [Row.mk 1 5 0, Row.mk 2 9 0], x.created_at ≤ r.created_at) ∧
    (∀ (sf df : Bool), cleanup_old_snapshots sf df ([] : List (Row Nat)) = []) :=
  cleanup_retention_policy [Row.mk 1 5 0, Row.mk 2 9 0] (by decide) (by decide)

/-- C10: `format_time_remaining` decomposes a nonnegative duration `s` into
hours, minutes, seconds with `h*3600 + m*60 + r = ⌊s⌋`, `0 ≤ m < 60` and
`0 ≤ r < 60`; and `calculate_sleep_time` never returns a negative value. -/
theorem format_time_and_sleep_nonneg (s next_time now : ℚ) (hs : 0 ≤ s) :
    (format_time_remaining s).1 * 3600 + (format_time_remaining s).2.1 * 60 +
        (format_time_remaining s).2.2 = ⌊s⌋ ∧
    0 ≤ (format_time_remaining s).2.1 ∧ (format_time_remaining s).2.1 < 60 ∧
    0 ≤ (format_time_remaining s).2.2 ∧ (format_time_remaining s).2.2 < 60 ∧
    0 ≤ calculate_sleep_time next_time now := by
  have h3600 : (0 : ℚ) < 3600 := by norm_num
  have h60 : (0 : ℚ) < 60 := by norm_num
  have hmod3600 : pymod s 3600 = s - 3600 * (⌊s / 3600⌋ : ℚ) := rfl
  have hmod60 : pymod s 60 = s - 60 * (⌊s / 60⌋ : ℚ) := rfl
  have hhours : (format_time_remaining s).1 = ⌊s / 3600⌋ := pyint_pyfloordiv s 3600
  have hminutes : (format_time_remaining s).2.1 = ⌊s / 60⌋ - 60 * ⌊s / 3600⌋ := by
    show pyint (pyfloordiv (pymod s 3600) 60) = _
    rw [pyint_pyfloordiv, hmod3600]
    have : (s - 3600 * (⌊s / 3600⌋ : ℚ)) / 60 = s / 60 - ((60 * ⌊s / 3600⌋ : ℤ) : ℚ) := by
      push_cast
      ring
    rw [this, Int.floor_sub_int]
  have hseconds : (format_time_remaining s).2.2 = ⌊s⌋ - 60 * ⌊s / 60⌋ := by
    show pyint (pymod s 60) = _
    rw [pyint_of_nonneg (pymod_nonneg s 60 h60), hmod60]
    have : s - 60 * (⌊s / 60⌋ : ℚ) = s - ((60 * ⌊s / 60⌋ : ℤ) : ℚ) := by
      push_cast
      ring
    rw [this, Int.floor_sub_int]
  have hmb : 0 ≤ pymod s 3600 ∧ pymod s 3600 < 3600 :=
    ⟨pymod_nonneg s 3600 h3600, pymod_lt s 3600 h3600⟩
  have hminutes_lb : 0 ≤ (format_time_remaining s).2.1 := by
    show 0 ≤ pyint (pyfloordiv (pymod s 3600) 60)
    rw [pyint_pyfloordiv]
    apply Int.le_floor.2
    push_cast
    exact div_nonneg hmb.1 h60.le
  have hminutes_ub : (format_time_remaining s).2.1 < 60 := by
    show pyint (pyfloordiv (pymod s 3600) 60) < 60
    rw [pyint_pyfloordiv]
    apply Int.floor_lt.2
    push_cast
    rw [div_lt_iff₀ h60]
    calc pymod s 3600 < 3600 := hmb.2
      _ = 60 * 60 := by norm_num
  have hseconds_lb : 0 ≤ (format_time_remaining s).2.2 := by
    show 0 ≤ pyint (pymod s 60)
    rw [pyint_of_nonneg (pymod_nonneg s 60 h60)]
    apply Int.le_floor.2
    push_cast
    exact pymod_nonneg s 60 h60
  have hseconds_ub : (format_time_remaining s).2.2 < 60 := by
    show pyint (pymod s 60) < 60
    rw [pyint_of_nonneg (pymod_nonneg s 60 h60)]
    apply Int.floor_lt.2
    push_cast
    exact pymod_lt s 60 h60
  refine ⟨?_, hminutes_lb, hminutes_ub, hseconds_lb, hseconds_ub, le_max_left 0 _⟩
  rw [hhours, hminutes, hseconds]
  ring

theorem format_time_and_sleep_nonneg_witness :
    ((format_time_remaining 3725).1 * 3600 + (format_time_remaining 3725).2.1 * 60 +
        (format_time_remaining 3725).2.2 = ⌊(3725 : ℚ)⌋ ∧
      0 ≤ (format_time_remaining 3725).2.1 ∧ (format_time_remaining 3725).2.1 < 60 ∧
      0 ≤ (format_time_remaining 3725).2.2 ∧ (format_time_remaining 3725).2.2 < 60 ∧
      0 ≤ calculate_sleep_time 100 250) :=
  format_time_and_sleep_nonneg 3725 100 250 (by norm_num)

/-! ## Concrete fixtures for witnesses and counterexamples -/

def sampleClockOpen : ClockData :=
  { is_open := true, next_open := some 200, next_close := some 300, timestamp := some 100 }

def sampleClockClosed : ClockData :=
  { is_open := false, next_open := some 200, next_close := some 300, timestamp := some 100 }

def sampleVendorClosed : VendorClock :=
  { is_open := false, next_open := some 200, next_close := some 300, timestamp := some 100 }

def sampleAccount : Account :=
  { id := "acct-1", account_number := "PA3", status := "ACTIVE", currency := "USD"
    cash := "100", portfolio_value := "100", pattern_day_trader := "False"
    trading_blocked := "False", transfers_blocked := "False", account_blocked := "False"
    created_at := "2024-01-01", trade_suspended_by_user := "False", multiplier := "2"
    shorting_enabled := "True", equity := "100", last_equity := "100"
    long_market_value := "0", short_market_value := "0", initial_margin := "0"
    maintenance_margin := "0", last_maintenance_margin := "0", daytrade_count := "0"
    buying_power := "200", daytrading_buying_power := "0", regt_buying_power := "200"
    non_marginable_buying_power := "0" }

def samplePosition : Position :=
  { asset_id := "asset-1", symbol := "AAPL", exchange := "NASDAQ"
    asset_class := "us_equity", asset_marginable := "True", qty := "10"
    avg_entry_price := "150", side := "long", market_value := "1600"
    cost_basis := "1500", unrealized_pl := "100", unrealized_plpc := "0.066"
    unrealized_intraday_pl := "10", unrealized_intraday_plpc := "0.006"
    current_price := "160", lastday_price := "158", change_today := "0.012"
    qty_available := "10" }

def envAccountFetchErr : AccountEnv :=
  { status := some sampleClockOpen, fetch := FetchResult.err, insertFails := false
    cleanupSelectFails := false, cleanupDeleteFails := false, createdAt := 10 }

def envAccountOk : AccountEnv :=
  { status := some sampleClockOpen, fetch := FetchResult.ok sampleAccount
    insertFails := false, cleanupSelectFails := false, cleanupDeleteFails := false
    createdAt := 11 }

def envAccountClosed : AccountEnv :=
  { status := some sampleClockClosed, fetch := FetchResult.ok sampleAccount
    insertFails := false, cleanupSelectFails := false, cleanupDeleteFails := false
    createdAt := 12 }

def envAccountNoStatus : AccountEnv :=
  { status := none, fetch := FetchResult.ok sampleAccount, insertFails := false
    cleanupSelectFails := false, cleanupDeleteFails := false, createdAt := 13 }

def envPositionsNoStatus : PositionsEnv :=
  { status := none, fetch := FetchResult.ok [samplePosition], deleteFails := false
    insertFails := false, cleanupSelectFails := false, cleanupDeleteFails := false
    createdAt := 14 }

def envPositionsClosed : PositionsEnv :=
  { status := some sampleClockClosed, fetch := FetchResult.ok [samplePosition]
    deleteFails := false, insertFails := false, cleanupSelectFails := false
    cleanupDeleteFails := false, createdAt := 20 }

def envPositionsOpen : PositionsEnv :=
  { status := some sampleClockOpen, fetch := FetchResult.ok [samplePosition]
    deleteFails := false, insertFails := false, cleanupSelectFails := false
    cleanupDeleteFails := false, createdAt := 21 }

def envClockClosed : ClockEnv :=
  { vendor := FetchResult.ok sampleVendorClosed, insertFails := false, now := 0
    cleanupSelectFails := false, cleanupDeleteFails := false, createdAt := 7 }

def recA : Record := [("symbol", "AAPL")]

def recB : Record := [("symbol", "TSLA")]

/-- C1 counterexample: with a fetch failure on the first iteration the
account-poller run processes no further iteration — the trace over two
environments has length one and its only iteration propagated the
exception — refuting "the iteration ends without crashing the loop, and the
next iteration runs after the sleep interval". -/
theorem account_fetch_error_stops_counterexample :
    (runAccount false [envAccountFetchErr, envAccountOk] [] 1).length = 1 ∧
    (accountIteration false envAccountFetchErr [] 1).raised = true := by
  decide

/-- C1 (amended): in every poller loop a fetch or publish failure during an
iteration is caught by the surrounding handler and logged, but then
re-raised: the loop terminates with that iteration and no next iteration
runs, so fetch/publish errors do terminate the process. -/
theorem poller_error_terminates_loop :
    (∀ (fo : Bool) (e : AccountEnv) (rest : List AccountEnv)
        (tbl : List (Row Record)) (nid : Nat),
        (accountIteration fo e tbl nid).raised = true →
        runAccount fo (e :: rest) tbl nid = [accountIteration fo e tbl nid]) ∧
    (∀ (fo : Bool) (e : PositionsEnv) (rest : List PositionsEnv)
        (tbl : List (Row Record)) (nid : Nat),
        (positionsIteration fo e tbl nid).raised = true →
        runPositions fo (e :: rest) tbl nid = [positionsIteration fo e tbl nid]) ∧
    (∀ (fo tm : Bool) (e : ClockEnv) (rest : List ClockEnv)
        (tbl : List (Row ClockData)) (nid : Nat),
        (clockIteration fo tm e tbl nid).raised = true →
        runClock fo tm (e :: rest) tbl nid = [clockIteration fo tm e tbl nid]) ∧
    (∀ (fo : Bool) (e : AccountEnv) (tbl : List (Row Record)) (nid : Nat) (c : ClockData),
        e.status = some c → (fo || c.is_open) = true → e.fetch = FetchResult.err →
        (accountIteration fo e tbl nid).raised = true) ∧
    (∀ (fo : Bool) (e : PositionsEnv) (tbl : List (Row Record)) (nid : Nat) (c : ClockData),
        e.status = some c → (fo || c.is_open) = true → e.fetch = FetchResult.err →
        (positionsIteration fo e tbl nid).raised = true) ∧
    (∀ (fo tm : Bool) (e : ClockEnv) (tbl : List (Row ClockData)) (nid : Nat)
        (vc : VendorClock),
        e.vendor = FetchResult.ok vc → e.insertFails = true →
        (clockIteration fo tm e tbl nid).raised = true) := by
  refine ⟨?_, ?_, ?_, ?_, ?_, ?_⟩
  · intro fo e rest tbl nid h
    simp [runAccount, h]
  · intro fo e rest tbl nid h
    simp [runPositions, h]
  · intro fo tm e rest tbl nid h
    simp [runClock, h]
  · intro fo e tbl nid c hst hopen hf
    obtain ⟨st, f, iF, csf, cdf, ts⟩ := e
    simp only at hst hf
    subst hst hf
    simp [accountIteration, hopen]
  · intro fo e tbl nid c hst hopen hf
    obtain ⟨st, f, dF, iF, csf, cdf, ts⟩ := e
    simp only at hst hf
    subst hst hf
    simp [positionsIteration, hopen]
  · intro fo tm e tbl nid vc hv hins
    obtain ⟨v, iF, now, csf, cdf, ts⟩ := e
    simp only at hv hins
    subst hv hins
    simp [clockIteration, get_clock_data]

theorem poller_error_terminates_loop_witness :
    runAccount false [envAccountFetchErr] [] 1 = [accountIteration false envAccountFetchErr [] 1] :=
  poller_error_terminates_loop.1 false envAccountFetchErr [] [] 1 (by decide)

/-- C2 counterexample: an unforced clock-poller iteration with the resolved
status closed still fetches and publishes — the snapshot insert precedes the
`is_open` check — refuting "never calls fetch-and-publish while status is
closed and unforced". -/
theorem clock_closed_publish_counterexample :
    (clockIteration false false envClockClosed [] 1).fetched = true ∧
    (clockIteration false false envClockClosed [] 1).publishCalls = 1 ∧
    get_clock_data false envClockClosed.vendor = Except.ok sampleClockClosed ∧
    sampleClockClosed.is_open = false :=
  ⟨rfl, rfl, rfl, rfl⟩

/-- C2 (amended): the account and positions pollers call fetch-and-publish
in an iteration if and only if a status row was resolved and it is open or
force_open is set; the clock poller instead calls fetch-and-publish on every
iteration regardless of status (its own fetch is the status resolution). -/
theorem fetch_publish_gating :
    (∀ (fo : Bool) (envs : List AccountEnv) (tbl : List (Row Record)) (nid : Nat),
        ∀ it ∈ runAccount fo envs tbl nid,
          (it.fetched = true ↔ ∃ c, it.env.status = some c ∧ (fo || c.is_open) = true)) ∧
    (∀ (fo : Bool) (envs : List PositionsEnv) (tbl : List (Row Record)) (nid : Nat),
        ∀ it ∈ runPositions fo envs tbl nid,
          (it.fetched = true ↔ ∃ c, it.env.status = some c ∧ (fo || c.is_open) = true)) ∧
    (∀ (fo tm : Bool) (e : ClockEnv) (tbl : List (Row ClockData)) (nid : Nat),
        (clockIteration fo tm e tbl nid).fetched = true) := by
  refine ⟨?_, ?_, ?_⟩
  · intro fo envs tbl nid it hmem
    obtain ⟨e, tbl0, nid0, rfl⟩ := runAccount_mem fo envs tbl nid it hmem
    rw [accountIteration_env]
    exact accountIteration_fetched fo e tbl0 nid0
  · intro fo envs tbl nid it hmem
    obtain ⟨e, tbl0, nid0, rfl⟩ := runPositions_mem fo envs tbl nid it hmem
    rw [positionsIteration_env]
    exact positionsIteration_fetched fo e tbl0 nid0
  · intro fo tm e tbl nid
    exact clockIteration_fetched fo tm e tbl nid

theorem fetch_publish_gating_witness :
    ((accountIteration false envAccountClosed [] 1).fetched = true ↔
      ∃ c, (accountIteration false envAccountClosed [] 1).env.status = some c ∧
        (false || c.is_open) = true) :=
  fetch_publish_gating.1 false [envAccountClosed] [] 1
    (accountIteration false envAccountClosed [] 1) (by decide)

/-- C3 (code slip, evaluated at the failing input): while the market is
closed and force_open is unset, a positions-poller iteration DOES invoke
`cleanup_old_snapshots` on positions_snapshot — here a table holding two
positions of the last-known full set is cut down to its single most recent
row, so the table does not survive intact as the claim (and the code's own
full-state-replace model) requires. -/
theorem positions_closed_cleanup_deletes_rows :
    (positionsIteration false envPositionsClosed
        [Row.mk 1 5 recA, Row.mk 2 9 recB] 3).table = [Row.mk 2 9 recB] ∧
    (positionsIteration false envPositionsClosed
        [Row.mk 1 5 recA, Row.mk 2 9 recB] 3).fetched = false := by
  decide

/-- C4 counterexample: a run-once (test-mode) clock iteration with the
market closed returns the fetched snapshot — not `None` — and performs one
publish (insert) call — not zero. -/
theorem clock_test_mode_closed_counterexample :
    (clockIteration false true envClockClosed [] 1).returned = some sampleClockClosed ∧
    sampleClockClosed.is_open = false ∧
    (clockIteration false true envClockClosed [] 1).publishCalls = 1 :=
  ⟨rfl, rfl, rfl⟩

/-- C4 (amended): in run-once (test) mode, an iteration whose fetch and
insert succeed returns the fetched clock snapshot and performs exactly one
publish call in both cases — with the market open the returned snapshot is
the published open snapshot, and with the market closed the returned value
is the closed snapshot rather than `None`, the publish having happened
before the open/closed branch. -/
theorem clock_test_mode_returns :
    ∀ (fo : Bool) (e : ClockEnv) (tbl : List (Row ClockData)) (nid : Nat) (cd : ClockData),
      get_clock_data fo e.vendor = Except.ok cd →
      e.insertFails = false →
      (cd.is_open = true → cd.next_close ≠ none) →
      (cd.is_open = false → cd.next_open ≠ none) →
      (clockIteration fo true e tbl nid).returned = some cd ∧
      (clockIteration fo true e tbl nid).publishCalls = 1 ∧
      (clockIteration fo true e tbl nid).raised = false := by
  intro fo e tbl nid cd hcd hins hnc hno
  by_cases hopen : cd.is_open = true
  · obtain ⟨nc, hc⟩ : ∃ nc, cd.next_close = some nc := by
      cases hx : cd.next_close with
      | none => exact absurd hx (hnc hopen)
      | some nc => exact ⟨nc, rfl⟩
    simp [clockIteration, hcd, hins, hopen, hc]
  · have hopen2 : cd.is_open = false := by simpa using hopen
    obtain ⟨nop, ho⟩ : ∃ nop, cd.next_open = some nop := by
      cases hx : cd.next_open with
      | none => exact absurd hx (hno hopen2)
      | some nop => exact ⟨nop, rfl⟩
    simp [clockIteration, hcd, hins, hopen2, ho]

theorem clock_test_mode_returns_witness :
    (clockIteration false true envClockClosed [] 1).returned = some sampleClockClosed ∧
    (clockIteration false true envClockClosed [] 1).publishCalls = 1 ∧
    (clockIteration false true envClockClosed [] 1).raised = false :=
  clock_test_mode_returns false envClockClosed [] 1 sampleClockClosed rfl rfl
    (by decide) (by decide)

/-- C6: after a successful positions publish step (status open or forced,
fetch ok, delete-then-insert both succeeding) the positions_snapshot table
contains exactly the positions returned by that iteration's fetch, no more
and no fewer, for every prior table state respecting the serial-id schema
invariant (no row has id 0, the sentinel the delete-all uses). -/
theorem positions_full_replace :
    ∀ (fo : Bool) (e : PositionsEnv) (tbl : List (Row Record)) (nid : Nat)
      (c : ClockData) (ps : List Position),
      e.status = some c → (fo || c.is_open) = true →
      e.fetch = FetchResult.ok ps → e.deleteFails = false → e.insertFails = false →
      (∀ r ∈ tbl, r.id ≠ 0) →
      (positionsIteration fo e tbl nid).table.map Row.payload = get_positions_data ps := by
  intro fo e tbl nid c ps hst hopen hf hd hi hids
  obtain ⟨st, f, dF, iF, csf, cdf, ts⟩ := e
  simp only at hst hf hd hi
  subst hst hf hd hi
  have hfil : tbl.filter (fun r => r.id == 0) = [] := by
    apply List.filter_eq_nil_iff.2
    intro r hr hbeq
    exact hids r hr (by simpa using hbeq)
  simp [positionsIteration, hopen, hfil, insertRows_map_payload]

theorem positions_full_replace_witness :
    (positionsIteration false envPositionsOpen [Row.mk 1 5 recA] 3).table.map Row.payload =
      get_positions_data [samplePosition] :=
  positions_full_replace false envPositionsOpen [Row.mk 1 5 recA] 3 sampleClockOpen
    [samplePosition] rfl rfl rfl rfl rfl (by decide)

/-- C7: an account- or positions-poller iteration whose market-status read
yields nothing (empty clock table or failed query) performs no fetch and no
publish, leaves the table unchanged, sleeps the fixed 60-second backoff, and
the loop goes on to retry the status check on the next iteration. -/
theorem status_unavailable_backoff :
    (∀ (fo : Bool) (e : AccountEnv) (rest : List AccountEnv)
        (tbl : List (Row Record)) (nid : Nat),
        e.status = none →
        accountIteration fo e tbl nid =
          { env := e, table := tbl, fetched := false, publishCalls := 0
            sleep := 60, raised := false } ∧
        runAccount fo (e :: rest) tbl nid =
          accountIteration fo e tbl nid :: runAccount fo rest tbl nid) ∧
    (∀ (fo : Bool) (e : PositionsEnv) (rest : List PositionsEnv)
        (tbl : List (Row Record)) (nid : Nat),
        e.status = none →
        positionsIteration fo e tbl nid =
          { env := e, table := tbl, fetched := false, publishCalls := 0
            sleep := 60, raised := false } ∧
        runPositions fo (e :: rest) tbl nid =
          positionsIteration fo e tbl nid :: runPositions fo rest tbl nid) := by
  constructor
  · intro fo e rest tbl nid h
    have hit : accountIteration fo e tbl nid =
        { env := e, table := tbl, fetched := false, publishCalls := 0
          sleep := 60, raised := false } := by
      obtain ⟨st, f, iF, csf, cdf, ts⟩ := e
      simp only at h
      subst h
      rfl
    exact ⟨hit, by simp [runAccount, hit]⟩
  · intro fo e rest tbl nid h
    have hit : positionsIteration fo e tbl nid =
        { env := e, table := tbl, fetched := false, publishCalls := 0
          sleep := 60, raised := false } := by
      obtain ⟨st, f, dF, iF, csf, cdf, ts⟩ := e
      simp only at h
      subst h
      rfl
    exact ⟨hit, by simp [runPositions, hit]⟩

theorem status_unavailable_backoff_witness :
    (accountIteration false envAccountNoStatus [] 1 =
      { env := envAccountNoStatus, table := [], fetched := false, publishCalls := 0
        sleep := 60, raised := false } ∧
      runAccount false [envAccountNoStatus] [] 1 =
        accountIteration false envAccountNoStatus [] 1 :: runAccount false [] [] 1) :=
  (status_unavailable_backoff.1 false envAccountNoStatus [] [] 1 rfl)

/-- C8 counterexample: with force_open set but the persisted clock row
absent (status source unavailable) the account-poller iteration does not
behave as open: it performs no fetch and takes the 60-second backoff,
refuting "every iteration behaves as open" over every source state. -/
theorem force_open_unavailable_counterexample :
    (accountIteration true envAccountNoStatus [] 1).fetched = false ∧
    (accountIteration true envAccountNoStatus [] 1).sleep = 60 := by
  decide

/-- C8 (amended): when force_open is set, the clock fetcher resolves
open=true whenever its vendor query succeeds (whatever the vendor clock
says), and a dependent poller iteration behaves as open whenever a persisted
clock row is read (open or closed); but when the status source is
unavailable (no row / failed query) the dependent pollers take the
60-second backoff path instead of behaving as open. -/
theorem force_open_behavior :
    (∀ vc : VendorClock, ∃ cd, get_clock_data true (FetchResult.ok vc) = Except.ok cd ∧
        cd.is_open = true) ∧
    (∀ (e : AccountEnv) (tbl : List (Row Record)) (nid : Nat) (c : ClockData),
        e.status = some c → (accountIteration true e tbl nid).fetched = true) ∧
    (∀ (e : PositionsEnv) (tbl : List (Row Record)) (nid : Nat) (c : ClockData),
        e.status = some c → (positionsIteration true e tbl nid).fetched = true) ∧
    (∀ (e : AccountEnv) (tbl : List (Row Record)) (nid : Nat),
        e.status = none →
        (accountIteration true e tbl nid).fetched = false ∧
        (accountIteration true e tbl nid).sleep = 60) := by
  refine ⟨?_, ?_, ?_, ?_⟩
  · intro vc
    exact ⟨_, rfl, rfl⟩
  · intro e tbl nid c h
    exact (accountIteration_fetched true e tbl nid).2 ⟨c, h, by simp⟩
  · intro e tbl nid c h
    exact (positionsIteration_fetched true e tbl nid).2 ⟨c, h, by simp⟩
  · intro e tbl nid h
    obtain ⟨st, f, iF, csf, cdf, ts⟩ := e
    simp only at h
    subst h
    exact ⟨rfl, rfl⟩

theorem force_open_behavior_witness :
    (accountIteration true envAccountClosed [] 1).fetched = true :=
  force_open_behavior.2.1 envAccountClosed [] 1 sampleClockClosed rfl

/-- The account record after `account_data['alpaca_id'] = account_data.pop('id')`:
the `id` entry is removed and its value re-inserted under `alpaca_id` at the
end. -/
def renamedAccount (a : Account) : Record :=
  ((get_account_data a).filter (fun kv => kv.1 != "id")) ++ [("alpaca_id", a.id)]

theorem rename_get_account_data (a : Account) :
    rename_id_to_alpaca (get_account_data a) = Except.ok (renamedAccount a) := rfl

/-- C9: an open-market account iteration with a successful fetch and insert
appends exactly one row to account_snapshot, and the inserted record carries
the vendor record identifier under the key `alpaca_id` (equal to the fetched
`id` field) with the original `id` key removed. -/
theorem account_insert_renamed :
    ∀ (fo : Bool) (e : AccountEnv) (tbl : List (Row Record)) (nid : Nat)
      (c : ClockData) (a : Account),
      e.status = some c → (fo || c.is_open) = true →
      e.fetch = FetchResult.ok a → e.insertFails = false →
      (accountIteration fo e tbl nid).table =
        tbl ++ [Row.mk nid e.createdAt (renamedAccount a)] ∧
      (accountIteration fo e tbl nid).publishCalls = 1 ∧
      (renamedAccount a).lookup "alpaca_id" = some a.id ∧
      (renamedAccount a).lookup "id" = none := by
  intro fo e tbl nid c a hst hopen hf hi
  obtain ⟨st, f, iF, csf, cdf, ts⟩ := e
  simp only at hst hf hi
  subst hst hf hi
  refine ⟨?_, ?_, rfl, rfl⟩
  · simp [accountIteration, hopen, rename_get_account_data]
  · simp [accountIteration, hopen, rename_get_account_data]

theorem account_insert_renamed_witness :
    ((accountIteration false envAccountOk [] 1).table =
      [] ++ [Row.mk 1 envAccountOk.createdAt (renamedAccount sampleAccount)] ∧
    (accountIteration false envAccountOk [] 1).publishCalls = 1 ∧
    (renamedAccount sampleAccount).lookup "alpaca_id" = some sampleAccount.id ∧
    (renamedAccount sampleAccount).lookup "id" = none) :=
  account_insert_renamed false envAccountOk [] 1 sampleClockOpen sampleAccount
    rfl rfl rfl rfl

end WarrenBot
